import Mathlib

/-!
Verification of the perfectogo/log logger (src/log.go) against its
natural-language specification.

The Go code is shallowly embedded: strings are Lean `String`s (all bytes
written by the logger are ASCII or come from caller-supplied strings, so
byte-level and char-level concatenation agree), the `io.Sink` sink is an
abstract `Sink` value together with a write function
`wr : String -> Option String` giving the error (if any) each write
produces, Go `error` values are `Option String` (`some m` is a non-nil
error whose Error() method returns `m`, `none` is nil), and the ambient
runtime facts (`time.Now()`, `runtime.Caller`, function-name resolution)
are passed in as explicit parameters.  Side effects of a call are recorded
as a trace of `LogEvent`s: each `runtime.Caller` / `FuncForPC` style stack
inspection is one `.capture` event and each sink write is a `.write` event
carrying the written bytes.
-/

/-- Modelled from the spec: the Color Palette component (section 4.1) -- the
color-constant source file is not under src/.  A fixed mapping from semantic
name to ANSI escape string, with the values the spec gives as its examples
(Green is the spec's own example; the rest are the standard ANSI codes the
spec's named colors denote), plus the Reset sequence. -/
def Reset : String := "\x1b[0m"

/-- Modelled from the spec: palette entry Red (ANSI escape). -/
def Red : String := "\x1b[31m"

/-- Modelled from the spec: palette entry Green (the spec's example value). -/
def Green : String := "\x1b[32m"

/-- Modelled from the spec: palette entry Yellow (ANSI escape). -/
def Yellow : String := "\x1b[33m"

/-- Modelled from the spec: palette entry Blue (ANSI escape). -/
def Blue : String := "\x1b[34m"

/-- Modelled from the spec: palette entry White (ANSI escape). -/
def White : String := "\x1b[37m"

/-- Flag bit Ldate (src/log.go): the date in the local time zone. -/
def Ldate : Nat := 1

/-- Flag bit Ltime (src/log.go): the time in the local time zone. -/
def Ltime : Nat := 2

/-- Flag bit Lmicroseconds (src/log.go): microsecond resolution. -/
def Lmicroseconds : Nat := 4

/-- Flag bit Llongfile (src/log.go): full file name and line number. -/
def Llongfile : Nat := 8

/-- Flag bit Lshortfile (src/log.go): final file name element and line
number; overrides Llongfile. -/
def Lshortfile : Nat := 16

/-- Flag bit LUTC (src/log.go): use UTC rather than the local time zone. -/
def LUTC : Nat := 32

/-- Flag bit (src/log.go): move the logger prefix from the beginning of
the line to before the message.  (Go name: L followed by msgprefix.) -/
def Lmsgprefix : Nat := 64

/-- LstdFlags (src/log.go): initial values for the standard logger. -/
def LstdFlags : Nat := Ldate ||| Ltime

/-- One calendar/clock view of an instant: the components Go's
time.Time.Date(), .Clock() and .Nanosecond() return. -/
structure DateTime where
  year : Nat
  month : Nat
  day : Nat
  hour : Nat
  min : Nat
  sec : Nat
  nsec : Nat
deriving DecidableEq

/-- Embedding of Go's time.Time: the instant carries both its local-zone
view and its UTC view, so that t.UTC() is expressible. -/
structure Time where
  loc : DateTime
  utc : DateTime
deriving DecidableEq

/-- Go's t.UTC(): afterwards the local view is the UTC view. -/
def Time.UTC (t : Time) : Time := { loc := t.utc, utc := t.utc }

/-- The identity of an io.Writer sink.  Sink.discard is io.Discard (the
null sink New and SetOutput compare against); stderr is os.Stderr; custom
covers any other writer. -/
inductive Sink where
  | stderr
  | discard
  | custom (id : Nat)
deriving DecidableEq

/-- An observable side effect of a log call: one runtime stack inspection
(runtime.Caller / FuncForPC), or one write of the given bytes to the sink. -/
inductive LogEvent where
  | capture
  | write (bytes : String)
deriving DecidableEq

/-- The byte sequences written to the sink by a trace, in order. -/
def writesOf (evts : List LogEvent) : List String :=
  evts.filterMap fun e =>
    match e with
    | .write b => some b
    | .capture => none

/-- Embedding of the Logger struct (src/log.go).  The mutex is not modelled
(the embedding is sequential); `pfx` is the Go field named like the
flag-moved prefix (a Lean keyword); `isDiscard` models the atomic int32 as
the boolean it encodes. -/
structure Logger where
  pfx : String
  flag : Nat
  out : Sink
  buf : String
  isDiscard : Bool
deriving DecidableEq

/-- New (src/log.go): the constructor; sets the discard flag iff the sink
is io.Discard. -/
def New (out : Sink) (p : String) (flag : Nat) : Logger :=
  { pfx := p, flag := flag, out := out, buf := "",
    isDiscard := out == Sink.discard }

/-- SetOutput (src/log.go): swap the sink and re-derive the discard flag. -/
def Logger.SetOutput (l : Logger) (w : Sink) : Logger :=
  { l with out := w, isDiscard := w == Sink.discard }

/-- The digit-accumulating loop of itoa (src/log.go): produces the decimal
digits of i, left-padded with zeros while the remaining width exceeds 1.
Each Go iteration (condition i >= 10 || wid > 1) emits one low digit on the
right; the final write outside the loop emits the remaining digit. -/
def itoaCore (i : Nat) (wid : Int) : List Char :=
  if 10 ≤ i ∨ 1 < wid then
    itoaCore (i / 10) (wid - 1) ++ [Char.ofNat (48 + i % 10)]
  else
    [Char.ofNat (48 + i)]
termination_by i + wid.toNat
decreasing_by
  rename_i h
  rcases h with h | h
  · have : i / 10 < i := Nat.div_lt_self (by omega) (by omega)
    omega
  · have : i / 10 ≤ i := Nat.div_le_self i 10
    omega

/-- itoa (src/log.go): cheap integer to fixed-width decimal ASCII appended
to the buffer; a negative width avoids zero-padding. -/
def itoa (buf : String) (i : Nat) (wid : Int) : String :=
  buf ++ ⟨itoaCore i wid⟩

/-- The short-file loop of formatHeader (src/log.go lines 114-121): scan
from index len-1 down to (strictly greater than) 0; at the first slash
found, keep only what follows it. -/
def stripLoop (file : List Char) : Nat → List Char
  | 0 => file
  | i + 1 =>
    if file.getD (i + 1) ' ' = '/' then file.drop (i + 2)
    else stripLoop file i

/-- The file-shortening performed by formatHeader when Lshortfile is set. -/
def shortFile (file : String) : String :=
  ⟨stripLoop file.data (file.data.length - 1)⟩

/-- formatHeader (src/log.go): appends the log header to buf, in order:
prefix (if Lmsgprefix unset), date and/or time, file and line, prefix (if
Lmsgprefix set). -/
def Logger.formatHeader (l : Logger) (buf : String) (t : Time)
    (file : String) (line : Nat) : String :=
  let buf := if l.flag &&& Lmsgprefix == 0 then buf ++ l.pfx else buf
  let buf :=
    if l.flag &&& (Ldate ||| Ltime ||| Lmicroseconds) != 0 then
      let t := if l.flag &&& LUTC != 0 then t.UTC else t
      let buf :=
        if l.flag &&& Ldate != 0 then
          let buf := itoa buf t.loc.year 4
          let buf := buf ++ "/"
          let buf := itoa buf t.loc.month 2
          let buf := buf ++ "/"
          let buf := itoa buf t.loc.day 2
          buf ++ " "
        else buf
      let buf :=
        if l.flag &&& (Ltime ||| Lmicroseconds) != 0 then
          let buf := itoa buf t.loc.hour 2
          let buf := buf ++ ":"
          let buf := itoa buf t.loc.min 2
          let buf := buf ++ ":"
          let buf := itoa buf t.loc.sec 2
          let buf :=
            if l.flag &&& Lmicroseconds != 0 then
              itoa (buf ++ ".") (t.loc.nsec / 1000) 6
            else buf
          buf ++ " "
        else buf
      buf
    else buf
  let buf :=
    if l.flag &&& (Lshortfile ||| Llongfile) != 0 then
      let file := if l.flag &&& Lshortfile != 0 then shortFile file else file
      let buf := buf ++ file ++ ":"
      itoa buf line (-1) ++ ": "
    else buf
  if l.flag &&& Lmsgprefix != 0 then buf ++ l.pfx else buf

/-- The line Output accumulates in l.buf before color wrapping
(src/log.go lines 150-155): reset the buffer, format the header, append
the message, append one newline unless the message already ends with one
(Go condition: len(s) == 0 || s[len(s)-1] != newline). -/
def Logger.buildLine (l : Logger) (now : Time) (file : String) (line : Nat)
    (s : String) : String :=
  let buf := l.formatHeader "" now file line
  let buf := buf ++ s
  if s = "" ∨ s.data.getLast? ≠ some '\n' then buf ++ "\n" else buf

/-- The caller coordinates Output uses (src/log.go lines 139-148): when a
file flag is set, runtime.Caller's answer, with the sentinel on failure;
otherwise the zero values of the uninitialized file/line variables. -/
def resolveCaller (l : Logger) (caller : Option (String × Nat)) :
    String × Nat :=
  if l.flag &&& (Lshortfile ||| Llongfile) != 0 then
    match caller with
    | some (f, ln) => (f, ln)
    | none => ("???", 0)
  else ("", 0)

/-- The result of an Output call: the updated logger, the event trace, and
the returned error. -/
structure OutputResult where
  logger : Logger
  events : List LogEvent
  ret : Option String
deriving DecidableEq

/-- Output (src/log.go lines 133-169).  `wr` is the sink's write method
(the error its single write produces); `caller` is runtime.Caller's answer
at depth `calldepth` (none when ok is false); `funcName` and Go `err` feed
the three textually identical color-wrapping branches.  Returns whatever
error the one write produced (the Go code shadows its err parameter with
the write's error before returning it). -/
def Logger.Output (l : Logger) (wr : String → Option String)
    (funcName color : String) (err : Option String) (calldepth : Nat)
    (now : Time) (caller : Option (String × Nat)) (s : String) :
    OutputResult :=
  let _ := calldepth
  let fl := resolveCaller l caller
  let capEvts : List LogEvent :=
    if l.flag &&& (Lshortfile ||| Llongfile) != 0 then [.capture] else []
  let inner := l.buildLine now fl.1 fl.2 s
  let wrapped :=
    if funcName == "github.com/perfectogo/log.Error" then
      if err.isSome then color ++ "TIME: " ++ inner ++ Reset
      else color ++ "TIME: " ++ inner ++ Reset
    else color ++ "TIME: " ++ inner ++ Reset
  { logger := { l with buf := wrapped },
    events := capEvts ++ [.write wrapped],
    ret := wr wrapped }

/-- The ambient answers of the runtime for one level-function call: the
file and line runtime.Caller(1) reports for the user's call site, and the
fully-qualified name FuncForPC resolves for the captured program counter
(used by Println's fn closure). -/
structure CallerEnv where
  file : String
  line : Nat
  callerFn : String
deriving DecidableEq

/-- Println (src/log.go lines 176-195).  Captures caller metadata (two
stack inspections: runtime.Caller(1) and getCurrentFuncName, whose result
is the enclosing function's qualified name), then short-circuits on the
discard flag, then emits through Output with the White color.  `caller` is
runtime.Caller(2)'s answer inside Output; `v` is fmt.Sprint of the
variadic arguments.  Returns the event trace and the logger afterwards. -/
def Println (std : Logger) (wr : String → Option String) (env : CallerEnv)
    (now : Time) (caller : Option (String × Nat)) (v : String) :
    List LogEvent × Logger :=
  let filename := env.file
  let line := env.line
  let fnName := "github.com/perfectogo/log.Println"
  let pre : List LogEvent := [.capture, .capture]
  if std.isDiscard then (pre, std)
  else
    let color := White
    let r := std.Output wr fnName color none 2 now caller
      ("\nPATH:\t" ++ filename ++ "\nFUNCTION: " ++ env.callerFn ++
        "\nLOG LINE: " ++ toString line ++ color ++ "\nINFO: " ++ v ++ Reset)
    (pre ++ [.capture] ++ r.events, r.logger)

/-- Info (src/log.go lines 197-209): like Println with the Blue color and
tab-indented section labels. -/
def Info (std : Logger) (wr : String → Option String) (env : CallerEnv)
    (now : Time) (caller : Option (String × Nat)) (v : String) :
    List LogEvent × Logger :=
  let filename := env.file
  let line := env.line
  let fnName := "github.com/perfectogo/log.Info"
  let pre : List LogEvent := [.capture, .capture]
  if std.isDiscard then (pre, std)
  else
    let color := Blue
    let r := std.Output wr fnName color none 2 now caller
      ("\n\tPATH: " ++ filename ++ "\n\tLOG LINE: " ++ toString line ++
        "\n\tINFO: " ++ color ++ v ++ Reset)
    (pre ++ r.events, r.logger)

/-- Error (src/log.go lines 211-230): red with the cause's message when a
non-nil cause is supplied, otherwise green with the literal NO ERROR text. -/
def Error (std : Logger) (wr : String → Option String) (env : CallerEnv)
    (now : Time) (caller : Option (String × Nat)) (msg : String)
    (err : Option String) : List LogEvent × Logger :=
  let filename := env.file
  let line := env.line
  let fnName := "github.com/perfectogo/log.Error"
  let pre : List LogEvent := [.capture, .capture]
  if std.isDiscard then (pre, std)
  else
    match err with
    | some e =>
      let color := Red
      let r := std.Output wr fnName color (some e) 2 now caller
        ("\n\tPATH: " ++ filename ++ "\n\tLOG LINE: " ++ toString line ++
          color ++ "\n\tMESSAGE: " ++ msg ++ "\n\tERROR: " ++ e ++ Reset)
      (pre ++ r.events, r.logger)
    | none =>
      let color := Green
      let r := std.Output wr fnName color none 2 now caller
        ("\n\tPATH: " ++ filename ++ "\n\tLOG LINE: " ++ toString line ++
          color ++ "\n\tMESSAGE: " ++ msg ++ "\n\tERROR: NO ERROR" ++ Reset)
      (pre ++ r.events, r.logger)

/-- Warning (src/log.go lines 232-241): yellow, with a WARNING LOG banner. -/
def Warning (std : Logger) (wr : String → Option String) (env : CallerEnv)
    (now : Time) (caller : Option (String × Nat)) (v : String) :
    List LogEvent × Logger :=
  let filename := env.file
  let line := env.line
  let fnName := "github.com/perfectogo/log.Warning"
  let pre : List LogEvent := [.capture, .capture]
  if std.isDiscard then (pre, std)
  else
    let color := Yellow
    let r := std.Output wr fnName color none 2 now caller
      ("\nWARNING LOG\n\tPATH: " ++ filename ++ "\n\tLOG LINE: " ++
        toString line ++ "\n\tWARNING: " ++ color ++ v ++ Reset)
    (pre ++ r.events, r.logger)

/-- Decimal rendering of n zero-padded on the left to width w (the spec's
fixed-width, zero-padded numeric field). -/
def padNum (n w : Nat) : String :=
  ⟨List.replicate (w - (toString n).length) '0' ++ (toString n).data⟩

/-- Spec-side date field (spec section 4.3 step 2): 4-digit year, 2-digit
month and day, slash-separated, trailing space. -/
def specDatePart (flag : Nat) (d : DateTime) : String :=
  if flag &&& Ldate != 0 then
    padNum d.year 4 ++ "/" ++ padNum d.month 2 ++ "/" ++ padNum d.day 2 ++ " "
  else ""

/-- Spec-side time field (spec section 4.3 step 2): 2-digit hour, minute
and second, then 6-digit microseconds when requested, trailing space. -/
def specTimePart (flag : Nat) (d : DateTime) : String :=
  if flag &&& (Ltime ||| Lmicroseconds) != 0 then
    padNum d.hour 2 ++ ":" ++ padNum d.min 2 ++ ":" ++ padNum d.sec 2 ++
      (if flag &&& Lmicroseconds != 0 then "." ++ padNum (d.nsec / 1000) 6
       else "") ++ " "
  else ""

/-- Spec-side date-and-time block: converts to UTC first when LUTC is set. -/
def specDateTimePart (flag : Nat) (t : Time) : String :=
  if flag &&& (Ldate ||| Ltime ||| Lmicroseconds) != 0 then
    let d := if flag &&& LUTC != 0 then t.utc else t.loc
    specDatePart flag d ++ specTimePart flag d
  else ""

/-- Spec-side file:line field (spec section 4.3 step 3): the possibly
shortened path, a colon, the line number not zero-padded, colon-space. -/
def specFilePart (flag : Nat) (file : String) (line : Nat) : String :=
  if flag &&& (Lshortfile ||| Llongfile) != 0 then
    (if flag &&& Lshortfile != 0 then shortFile file else file) ++ ":" ++
      toString line ++ ": "
  else ""

/-- Spec-side header (spec section 4.3): prefix placement around the date,
time and file fields. -/
def specHeader (l : Logger) (t : Time) (file : String) (line : Nat) :
    String :=
  (if l.flag &&& Lmsgprefix == 0 then l.pfx else "") ++
    specDateTimePart l.flag t ++
    specFilePart l.flag file line ++
    (if l.flag &&& Lmsgprefix != 0 then l.pfx else "")

/-- The spec's file-shortening rule (spec section 4.3 step 3 and testable
property 6): strip everything up to and including the last path
separator. -/
def stripAfterLastSep (file : String) : String :=
  ⟨(file.data.reverse.takeWhile (fun c => c != '/')).reverse⟩

/-- The number of newline characters a string ends with. -/
def trailingNewlines (s : String) : Nat :=
  (s.data.reverse.takeWhile (fun c => c == '\n')).length

/-- Fixture: a concrete instant, 2024-01-05T01:02:03.123123456, identical
in the local and UTC views. -/
def sampleTime : Time :=
  { loc := ⟨2024, 1, 5, 1, 2, 3, 123123456⟩,
    utc := ⟨2024, 1, 5, 1, 2, 3, 123123456⟩ }

/-- Fixture: the instant 2024-01-05T00:00:00Z of the spec's header example. -/
def jan5 : Time :=
  { loc := ⟨2024, 1, 5, 0, 0, 0, 0⟩, utc := ⟨2024, 1, 5, 0, 0, 0, 0⟩ }

/-- Fixture: a sink write function that always succeeds. -/
def okWrite : String → Option String := fun _ => none

/-- Fixture: caller metadata as the runtime would report it for a call
from a user main function. -/
def sampleEnv : CallerEnv := ⟨"/tmp/main.go", 7, "main.main"⟩

/-- Fixture: a logger whose sink is the discard sink. -/
def discardStd : Logger := New Sink.discard "" LstdFlags

/-- Fixture: a logger writing to stderr with no flags and no prefix. -/
def plainStd : Logger := New Sink.stderr "" 0

/-- Fixture: a logger with only the short-file flag set. -/
def shortStd : Logger := New Sink.stderr "" Lshortfile

/-- The decimal digits of n, most significant first, as ASCII characters
(reference rendering the itoa loop is proved against). -/
def natDigits (n : Nat) : List Char :=
  if 10 ≤ n then natDigits (n / 10) ++ [Char.ofNat (48 + n % 10)]
  else [Char.ofNat (48 + n)]
termination_by n
decreasing_by
  exact Nat.div_lt_self (by omega) (by omega)

theorem natDigits_ne_nil (n : Nat) : natDigits n ≠ [] := by
  rw [natDigits]
  split <;> simp

theorem natDigits_of_lt (n : Nat) (h : n < 10) :
    natDigits n = [Char.ofNat (48 + n)] := by
  rw [natDigits, if_neg (by omega)]

theorem natDigits_of_ge (n : Nat) (h : 10 ≤ n) :
    natDigits n = natDigits (n / 10) ++ [Char.ofNat (48 + n % 10)] := by
  rw [natDigits, if_pos (by omega)]

theorem itoaCore_of_wid_le (i : Nat) (wid : Int) (hw : wid ≤ 1) :
    itoaCore i wid = natDigits i := by
  induction i using Nat.strong_induction_on generalizing wid with
  | _ i ih =>
    rw [itoaCore]
    by_cases h : 10 ≤ i
    · rw [if_pos (Or.inl h), ih (i / 10) (Nat.div_lt_self (by omega) (by omega)) _ (by omega),
        natDigits_of_ge i h]
    · rw [if_neg (by omega), natDigits_of_lt i (by omega)]

theorem digitChar_eq : ∀ n : Nat, n < 10 → Nat.digitChar n = Char.ofNat (48 + n) := by
  decide

theorem toDigitsCore_eq (fuel n : Nat) (acc : List Char) (h : n < fuel) :
    Nat.toDigitsCore 10 fuel n acc = natDigits n ++ acc := by
  induction fuel generalizing n acc with
  | zero => omega
  | succ fuel ih =>
    rw [Nat.toDigitsCore]
    by_cases h10 : n / 10 = 0
    · rw [if_pos h10, natDigits_of_lt n (by omega),
        digitChar_eq _ (Nat.mod_lt _ (by omega)), Nat.mod_eq_of_lt (by omega)]
      simp
    · rw [if_neg h10, ih (n / 10) _ (by omega), natDigits_of_ge n (by omega),
        digitChar_eq _ (Nat.mod_lt _ (by omega))]
      simp

theorem toDigits_eq_natDigits (n : Nat) : Nat.toDigits 10 n = natDigits n := by
  rw [Nat.toDigits, toDigitsCore_eq (n + 1) n [] (by omega)]
  simp

theorem toString_nat_data (n : Nat) : (toString n).data = natDigits n := by
  show (Nat.repr n).data = natDigits n
  rw [Nat.repr, toDigits_eq_natDigits]
  rfl

theorem natDigits_length_pos (n : Nat) : 1 ≤ (natDigits n).length :=
  List.length_pos.mpr (natDigits_ne_nil n)

theorem padNum_data (n w : Nat) :
    (padNum n w).data =
      List.replicate (w - (natDigits n).length) '0' ++ natDigits n := by
  rw [padNum]
  have hl : (toString n).length = (natDigits n).length := by
    show (toString n).data.length = (natDigits n).length
    rw [toString_nat_data]
  rw [hl]
  simp [toString_nat_data]

theorem itoaCore_pad (w i : Nat) :
    itoaCore i ((w : Int) + 1) =
      List.replicate ((w + 1) - (natDigits i).length) '0' ++ natDigits i := by
  induction w generalizing i with
  | zero =>
    rw [itoaCore_of_wid_le i _ (by norm_num)]
    rw [Nat.sub_eq_zero_of_le (by simpa using natDigits_length_pos i)]
    simp
  | succ w ih =>
    have hc1 : ((w + 1 : Nat) : Int) + 1 = ((w : Int) + 1) + 1 := by
      push_cast
      ring
    rw [hc1, itoaCore, if_pos (Or.inr (by omega))]
    have hc2 : ((w : Int) + 1) + 1 - 1 = (w : Int) + 1 := by ring
    rw [hc2, ih (i / 10)]
    by_cases h : 10 ≤ i
    · rw [natDigits_of_ge i h, List.append_assoc]
      have hlen : (natDigits (i / 10) ++ [Char.ofNat (48 + i % 10)]).length =
          (natDigits (i / 10)).length + 1 := by simp
      rw [hlen]
      have harith : (w + 1) - (natDigits (i / 10)).length =
          (w + 1 + 1) - ((natDigits (i / 10)).length + 1) := by omega
      rw [harith]
    · have hi0 : i / 10 = 0 := Nat.div_eq_of_lt (by omega)
      have him : i % 10 = i := Nat.mod_eq_of_lt (by omega)
      rw [hi0, him, natDigits_of_lt i (by omega), natDigits_of_lt 0 (by omega)]
      have hc : Char.ofNat (48 + 0) = '0' := by decide
      rw [hc]
      simp only [List.length_singleton]
      rw [Nat.add_sub_cancel, Nat.add_sub_cancel, List.append_assoc,
        List.singleton_append, show ('0' :: [Char.ofNat (48 + i)] : List Char) =
          [('0' : Char)] ++ [Char.ofNat (48 + i)] from rfl,
        ← List.append_assoc, ← List.replicate_succ']

theorem itoa_pad (b : String) (n w : Nat) :
    itoa b n ((w : Int) + 1) = b ++ padNum n (w + 1) := by
  rw [itoa]
  congr 1
  apply String.ext
  rw [itoaCore_pad, padNum_data]

theorem itoa_four (b : String) (n : Nat) : itoa b n 4 = b ++ padNum n 4 := by
  have h : (4 : Int) = ((3 : Nat) : Int) + 1 := by norm_num
  rw [h, itoa_pad]

theorem itoa_two (b : String) (n : Nat) : itoa b n 2 = b ++ padNum n 2 := by
  have h : (2 : Int) = ((1 : Nat) : Int) + 1 := by norm_num
  rw [h, itoa_pad]

theorem itoa_six (b : String) (n : Nat) : itoa b n 6 = b ++ padNum n 6 := by
  have h : (6 : Int) = ((5 : Nat) : Int) + 1 := by norm_num
  rw [h, itoa_pad]

theorem itoa_neg (b : String) (n : Nat) : itoa b n (-1) = b ++ toString n := by
  rw [itoa]
  congr 1
  apply String.ext
  rw [itoaCore_of_wid_le n (-1) (by norm_num), ← toString_nat_data]

theorem formatHeader_eq_specHeader (l : Logger) (b : String) (t : Time)
    (file : String) (line : Nat) :
    l.formatHeader b t file line = b ++ specHeader l t file line := by
  simp only [Logger.formatHeader, specHeader, specDateTimePart, specDatePart,
    specTimePart, specFilePart, Time.UTC]
  by_cases hmp : l.flag &&& Lmsgprefix = 0 <;>
  by_cases hdt : l.flag &&& (Ldate ||| Ltime ||| Lmicroseconds) = 0 <;>
  by_cases hutc : l.flag &&& LUTC = 0 <;>
  by_cases hd : l.flag &&& Ldate = 0 <;>
  by_cases ht : l.flag &&& (Ltime ||| Lmicroseconds) = 0 <;>
  by_cases hmic : l.flag &&& Lmicroseconds = 0 <;>
  by_cases hf : l.flag &&& (Lshortfile ||| Llongfile) = 0 <;>
  by_cases hs : l.flag &&& Lshortfile = 0 <;>
    simp [hmp, hdt, hutc, hd, ht, hmic, hf, hs, beq_iff_eq, bne_iff_ne,
      itoa_four, itoa_two, itoa_six, itoa_neg,
      String.append_assoc, String.append_empty, String.empty_append]

theorem stripLoop_of_no_slash (l : List Char) (i : Nat)
    (h : ∀ j, 1 ≤ j → j ≤ i → l.getD j ' ' ≠ '/') : stripLoop l i = l := by
  induction i with
  | zero => rfl
  | succ i ih =>
    rw [stripLoop, if_neg (h (i + 1) (by omega) (by omega))]
    exact ih fun j h1 h2 => h j h1 (by omega)

theorem stripLoop_of_slash (l : List Char) (i j : Nat) (h1 : 1 ≤ j)
    (h2 : j ≤ i) (h3 : l.getD j ' ' = '/')
    (h4 : ∀ k, j < k → k ≤ i → l.getD k ' ' ≠ '/') :
    stripLoop l i = l.drop (j + 1) := by
  induction i with
  | zero => omega
  | succ i ih =>
    by_cases hj : j = i + 1
    · subst hj
      rw [stripLoop, if_pos h3]
    · rw [stripLoop, if_neg (h4 (i + 1) (by omega) (by omega))]
      exact ih (by omega) fun k hk1 hk2 => h4 k hk1 (by omega)

theorem mem_of_getElem?_some {l : List Char} {i : Nat} {x : Char}
    (h : l[i]? = some x) : x ∈ l := by
  have hlt : i < l.length := (List.getElem?_eq_some.mp h).1
  have hg := List.getElem?_eq_getElem hlt
  rw [hg] at h
  exact Option.some_injective _ h ▸ List.getElem_mem hlt

theorem shortFile_eq (file : String) :
    shortFile file =
      if (file.data.drop 1).contains '/' then stripAfterLastSep file
      else file := by
  by_cases hc : (file.data.drop 1).contains '/' = true
  · rw [if_pos hc]
    have hmem : '/' ∈ file.data.drop 1 := by simpa using hc
    set l := file.data with hldef
    set p : Char → Bool := fun c => c != '/' with hpdef
    set tw := l.reverse.takeWhile p with htw
    set dw := l.reverse.dropWhile p with hdw
    have hsplit : tw ++ dw = l.reverse := List.takeWhile_append_dropWhile p l.reverse
    have hmemr : '/' ∈ l.reverse := List.mem_reverse.mpr (List.mem_of_mem_drop hmem)
    have hdwne : dw ≠ [] := by
      intro h0
      have := List.dropWhile_eq_nil_iff.mp h0 '/' hmemr
      simp [hpdef] at this
    have hl : l = dw.reverse ++ tw.reverse := by
      have h0 : l.reverse.reverse = (tw ++ dw).reverse := by rw [hsplit]
      simpa [List.reverse_append] using h0
    have hAne : dw.reverse ≠ [] := by
      simpa [List.reverse_eq_nil_iff] using hdwne
    have hAlast : dw.reverse.getLast? = some '/' := by
      rw [List.getLast?_reverse]
      cases hd : dw.head? with
      | none =>
        rw [List.head?_eq_none_iff] at hd
        exact absurd hd hdwne
      | some c =>
        have hh := List.head?_dropWhile_not p l.reverse
        rw [← hdw, hd] at hh
        have hc' : c = '/' := by simpa [hpdef] using hh
        rw [hc']
    have hBmem : ∀ x ∈ tw.reverse, x ≠ '/' := by
      intro x hx
      have := List.mem_takeWhile_imp (List.mem_reverse.mp hx)
      simpa [hpdef] using this
    have hAlen : 2 ≤ dw.reverse.length := by
      by_contra hno
      push_neg at hno
      have hpos : 0 < dw.reverse.length := List.length_pos.mpr hAne
      have h1 : dw.reverse.length = 1 := by omega
      obtain ⟨a, ha⟩ := List.length_eq_one.mp h1
      have ha' : a = '/' := by
        have h2 := hAlast
        rw [ha] at h2
        simpa using h2
      have hdrop : l.drop 1 = tw.reverse := by
        rw [hl, ha, ha']
        rfl
      rw [hdrop] at hmem
      exact absurd rfl (hBmem '/' hmem)
    have hlen : l.length = dw.reverse.length + tw.reverse.length := by
      rw [hl]
      simp
    have hgetj : l.getD (dw.reverse.length - 1) ' ' = '/' := by
      rw [List.getD_eq_getElem?_getD, hl, List.getElem?_append,
        if_pos (by omega)]
      rw [← List.getLast?_eq_getElem? dw.reverse, hAlast]
      rfl
    have hgetk : ∀ k, dw.reverse.length - 1 < k → k ≤ l.length - 1 →
        l.getD k ' ' ≠ '/' := by
      intro k hk1 hk2
      rw [List.getD_eq_getElem?_getD, hl, List.getElem?_append,
        if_neg (by omega)]
      cases hb : tw.reverse[k - dw.reverse.length]? with
      | none => simp
      | some x =>
        have hxmem : x ∈ tw.reverse := by
          have hlt := (List.getElem?_eq_some.mp hb).1
          have hg := List.getElem?_eq_getElem hlt
          rw [hg] at hb
          exact Option.some_injective _ hb ▸ List.getElem_mem hlt
        simpa using hBmem x hxmem
    have hstrip : stripLoop l (l.length - 1) =
        l.drop (dw.reverse.length - 1 + 1) :=
      stripLoop_of_slash l (l.length - 1) (dw.reverse.length - 1)
        (by omega) (by omega) hgetj hgetk
    have hdropA : l.drop (dw.reverse.length - 1 + 1) = tw.reverse := by
      rw [show dw.reverse.length - 1 + 1 = dw.reverse.length by omega, hl,
        List.drop_left]
    apply String.ext
    show stripLoop l (l.length - 1) = (stripAfterLastSep file).data
    rw [hstrip, hdropA]
    rfl
  · rw [if_neg hc]
    have hmem : '/' ∉ file.data.drop 1 := by simpa using hc
    apply String.ext
    show stripLoop file.data (file.data.length - 1) = file.data
    apply stripLoop_of_no_slash
    intro j h1 h2
    have hlt : j < file.data.length := by
      rcases hn : file.data.length with _ | n <;> omega
    rw [List.getD_eq_getElem?_getD]
    intro hj
    have hval : file.data[j] = '/' := by
      rw [List.getElem?_eq_getElem hlt] at hj
      simpa using hj
    apply hmem
    apply mem_of_getElem?_some (i := j - 1)
    rw [List.getElem?_drop, show 1 + (j - 1) = j by omega,
      List.getElem?_eq_getElem hlt, hval]

theorem data_ne_nil {s : String} (h : s ≠ "") : s.data ≠ [] := by
  intro h0
  apply h
  apply String.ext
  simpa using h0

theorem buildLine_eq (l : Logger) (now : Time) (file : String) (ln : Nat)
    (s : String) :
    l.buildLine now file ln s =
      l.formatHeader "" now file ln ++ s ++
        (if s = "" ∨ s.data.getLast? ≠ some '\n' then "\n" else "") := by
  simp only [Logger.buildLine]
  by_cases h : s = "" ∨ s.data.getLast? ≠ some '\n'
  · rw [if_pos h, if_pos h]
  · rw [if_neg h, if_neg h, String.append_empty]

theorem buildLine_ends_newline (l : Logger) (now : Time) (file : String)
    (ln : Nat) (s : String) :
    (l.buildLine now file ln s).data.getLast? = some '\n' := by
  rw [buildLine_eq]
  by_cases h : s = "" ∨ s.data.getLast? ≠ some '\n'
  · rw [if_pos h, String.data_append,
      List.getLast?_append_of_ne_nil _ (by decide)]
    decide
  · push_neg at h
    rw [if_neg (by push_neg; exact h), String.append_empty, String.data_append,
      List.getLast?_append_of_ne_nil _ (data_ne_nil h.1)]
    exact h.2

theorem getLast?_append_reset (x : String) :
    (x ++ Reset).data.getLast? = some 'm' := by
  rw [String.data_append, List.getLast?_append_of_ne_nil _ (by decide)]
  decide

theorem buildLine_reset (l : Logger) (now : Time) (file : String) (ln : Nat)
    (x : String) :
    l.buildLine now file ln (x ++ Reset) =
      l.formatHeader "" now file ln ++ (x ++ Reset) ++ "\n" := by
  rw [buildLine_eq, if_pos (Or.inr (by rw [getLast?_append_reset]; decide))]

theorem output_eq (l : Logger) (wr : String → Option String)
    (funcName color : String) (err : Option String) (cd : Nat) (now : Time)
    (caller : Option (String × Nat)) (s : String) :
    l.Output wr funcName color err cd now caller s =
      { logger := { l with buf := (color ++ "TIME: " ++
          l.buildLine now (resolveCaller l caller).1 (resolveCaller l caller).2 s
          ++ Reset) },
        events :=
          ((if l.flag &&& (Lshortfile ||| Llongfile) != 0
           then [LogEvent.capture] else []) ++
          [LogEvent.write (color ++ "TIME: " ++
            l.buildLine now (resolveCaller l caller).1
              (resolveCaller l caller).2 s ++ Reset)]),
        ret := wr (color ++ "TIME: " ++
          l.buildLine now (resolveCaller l caller).1
            (resolveCaller l caller).2 s ++ Reset) } := by
  by_cases hf : funcName == "github.com/perfectogo/log.Error" <;>
  by_cases he : err.isSome <;>
    simp [Logger.Output, hf, he]

theorem writesOf_append (a b : List LogEvent) :
    writesOf (a ++ b) = writesOf a ++ writesOf b :=
  List.filterMap_append a b _

theorem writesOf_output_events (l : Logger) (wr : String → Option String)
    (funcName color : String) (err : Option String) (cd : Nat) (now : Time)
    (caller : Option (String × Nat)) (s : String) :
    writesOf (l.Output wr funcName color err cd now caller s).events =
      [color ++ "TIME: " ++
        l.buildLine now (resolveCaller l caller).1 (resolveCaller l caller).2 s
        ++ Reset] := by
  rw [output_eq]
  by_cases hf : l.flag &&& (Lshortfile ||| Llongfile) != 0 <;>
    simp [hf, writesOf]

/-- Claim C1: every Output call performs exactly one write to the sink,
the written bytes are exactly the color escape, the literal marker
TIME-colon-space, the accumulated header and message line, and the reset
sequence; the returned error is exactly the error of that single write;
and the written bytes and returned error do not depend on the
functionName or err arguments (the conditioned branches are identical). -/
theorem Output_single_write_spec (l : Logger) (wr : String → Option String)
    (funcName color : String) (err : Option String) (cd : Nat) (now : Time)
    (caller : Option (String × Nat)) (s : String) :
    writesOf (l.Output wr funcName color err cd now caller s).events =
      [color ++ "TIME: " ++
        l.buildLine now (resolveCaller l caller).1 (resolveCaller l caller).2 s
        ++ Reset] ∧
    (l.Output wr funcName color err cd now caller s).ret =
      wr (color ++ "TIME: " ++
        l.buildLine now (resolveCaller l caller).1 (resolveCaller l caller).2 s
        ++ Reset) ∧
    (∀ (funcName2 : String) (err2 : Option String),
      l.Output wr funcName2 color err2 cd now caller s =
        l.Output wr funcName color err cd now caller s) := by
  refine ⟨writesOf_output_events l wr funcName color err cd now caller s,
    ?_, ?_⟩
  · rw [output_eq]
  · intro funcName2 err2
    rw [output_eq, output_eq]

/-- Claim C7: when caller-frame resolution fails (runtime.Caller reports
no frame) and a file flag is set, Output substitutes the sentinel path
and line 0 in the header and still performs its single write; the
returned error is still exactly the write's own error. -/
theorem Output_caller_failure_sentinel (l : Logger)
    (wr : String → Option String) (funcName color : String)
    (err : Option String) (cd : Nat) (now : Time) (s : String)
    (h : l.flag &&& (Lshortfile ||| Llongfile) ≠ 0) :
    writesOf (l.Output wr funcName color err cd now none s).events =
      [color ++ "TIME: " ++ l.buildLine now "???" 0 s ++ Reset] ∧
    (l.Output wr funcName color err cd now none s).ret =
      wr (color ++ "TIME: " ++ l.buildLine now "???" 0 s ++ Reset) := by
  have hrc : resolveCaller l none = ("???", 0) := by
    rw [resolveCaller, if_pos (by simpa [bne_iff_ne] using h)]
  constructor
  · rw [writesOf_output_events, hrc]
  · rw [output_eq, hrc]

/-- Witness for C7: a logger with only the short-file flag, at concrete
inputs. -/
theorem Output_caller_failure_sentinel_witness :
    writesOf (shortStd.Output okWrite "f" White none 2 sampleTime none "m").events =
      [White ++ "TIME: " ++ shortStd.buildLine sampleTime "???" 0 "m" ++ Reset] ∧
    (shortStd.Output okWrite "f" White none 2 sampleTime none "m").ret =
      okWrite (White ++ "TIME: " ++ shortStd.buildLine sampleTime "???" 0 "m" ++ Reset) :=
  Output_caller_failure_sentinel shortStd okWrite "f" White none 2 sampleTime
    "m" (by decide)

/-- Claim C8: the invariant that the discard flag is true exactly when the
sink is the discard sink is established by New for every argument triple
and re-established by every SetOutput call. -/
theorem New_SetOutput_discard_iff :
    (∀ (out : Sink) (p : String) (flag : Nat),
      ((New out p flag).isDiscard = true ↔ (New out p flag).out = Sink.discard)) ∧
    (∀ (l : Logger) (w : Sink),
      ((l.SetOutput w).isDiscard = true ↔ (l.SetOutput w).out = Sink.discard)) := by
  constructor
  · intro out p flag
    simp [New]
  · intro l w
    simp [Logger.SetOutput]

/-- Claim C10: SetOutput changes only the sink and the discard flag; the
prefix, the flag bitset and the accumulation buffer are untouched. -/
theorem SetOutput_frame (l : Logger) (w : Sink) :
    (l.SetOutput w).pfx = l.pfx ∧ (l.SetOutput w).flag = l.flag ∧
    (l.SetOutput w).buf = l.buf ∧ (l.SetOutput w).out = w :=
  ⟨rfl, rfl, rfl, rfl⟩

/-- Claim C2 counterexample: for the message consisting of an x and two
newlines (flags 0, empty prefix, so the header is empty), the accumulated
line is the message unchanged and is terminated by two newlines, not
exactly one. -/
theorem buildLine_preserves_double_newline :
    plainStd.buildLine sampleTime "" 0 "x\n\n" = "x\n\n" ∧
    trailingNewlines (plainStd.buildLine sampleTime "" 0 "x\n\n") = 2 := by
  constructor <;> decide

/-- Claim C2 (amended): Output resets the accumulation buffer (its result
is independent of the previous buffer contents), accumulates header then
message, and appends one newline iff the message is empty or does not
already end with a newline; hence the accumulated line always ends with a
newline, and ends with exactly one newline whenever the message is
nonempty and does not already end with one (a message already ending in
newlines is preserved as-is, so a message ending in two newlines yields a
line ending in two newlines). -/
theorem Output_newline_handling :
    (∀ (l : Logger) (b1 b2 : String) (wr : String → Option String)
        (funcName color : String) (err : Option String) (cd : Nat)
        (now : Time) (caller : Option (String × Nat)) (s : String),
      Logger.Output { l with buf := b1 } wr funcName color err cd now caller s =
        Logger.Output { l with buf := b2 } wr funcName color err cd now caller s) ∧
    (∀ (l : Logger) (now : Time) (file : String) (ln : Nat) (s : String),
      l.buildLine now file ln s =
        l.formatHeader "" now file ln ++ s ++
          (if s = "" ∨ s.data.getLast? ≠ some '\n' then "\n" else "")) ∧
    (∀ (l : Logger) (now : Time) (file : String) (ln : Nat) (s : String),
      (l.buildLine now file ln s).data.getLast? = some '\n') ∧
    (∀ (l : Logger) (now : Time) (file : String) (ln : Nat) (s : String),
      s ≠ "" → s.data.getLast? ≠ some '\n' →
      trailingNewlines (l.buildLine now file ln s) = 1) := by
  refine ⟨?_, buildLine_eq, buildLine_ends_newline, ?_⟩
  · intro l b1 b2 wr funcName color err cd now caller s
    rfl
  · intro l now file ln s hne hnl
    rw [buildLine_eq, if_pos (Or.inr hnl)]
    have hsd : s.data ≠ [] := data_ne_nil hne
    have hrevne : s.data.reverse ≠ [] := by
      simpa [List.reverse_eq_nil_iff] using hsd
    cases hr : s.data.reverse with
    | nil => exact absurd hr hrevne
    | cons c t =>
      have hch : c ≠ '\n' := by
        intro hcc
        apply hnl
        rw [← List.head?_reverse, hr]
        simp [hcc]
      have hchb : (c == '\n') = false := by
        simpa using hch
      rw [trailingNewlines]
      simp [String.data_append, List.reverse_append, hr,
        List.takeWhile_cons, hchb]

/-- Witness for C2 at concrete inputs: the single-x message gets exactly
one terminating newline. -/
theorem Output_newline_handling_witness :
    trailingNewlines (plainStd.buildLine sampleTime "" 0 "x") = 1 :=
  Output_newline_handling.2.2.2 plainStd sampleTime "" 0 "x"
    (by decide) (by decide)

/-- Claim C3 counterexample: with the discard flag set, Println still
performs its caller-metadata captures (runtime.Caller and the
function-name resolution run before the discard check), so the trace of
a discarded call is not capture-free. -/
theorem Println_captures_while_discarding :
    discardStd.isDiscard = true ∧
    (Println discardStd okWrite sampleEnv sampleTime none "x").1 ≠ [] ∧
    LogEvent.capture ∈ (Println discardStd okWrite sampleEnv sampleTime none "x").1 := by
  refine ⟨by decide, by decide, by decide⟩

/-- Claim C3 (amended): when the discard flag is set at the time of the
call, each of the four level functions returns before any formatting or
any Output call: no bytes are written to the sink, the logger is
unchanged, and no error can be produced; however the caller-metadata
captures have already happened (two stack inspections precede the
discard check in each function). -/
theorem levelFunctions_discard_no_write (std : Logger)
    (wr : String → Option String) (env : CallerEnv) (now : Time)
    (caller : Option (String × Nat)) (v m : String) (e : Option String)
    (h : std.isDiscard = true) :
    Println std wr env now caller v =
      ([LogEvent.capture, LogEvent.capture], std) ∧
    Info std wr env now caller v =
      ([LogEvent.capture, LogEvent.capture], std) ∧
    Warning std wr env now caller v =
      ([LogEvent.capture, LogEvent.capture], std) ∧
    Error std wr env now caller m e =
      ([LogEvent.capture, LogEvent.capture], std) ∧
    writesOf [LogEvent.capture, LogEvent.capture] = [] := by
  refine ⟨?_, ?_, ?_, ?_, rfl⟩ <;>
    simp [Println, Info, Warning, Error, h]

/-- Witness for C3: all four level functions on a discard-sink logger at
concrete inputs. -/
theorem levelFunctions_discard_no_write_witness :
    Println discardStd okWrite sampleEnv sampleTime none "x" =
      ([LogEvent.capture, LogEvent.capture], discardStd) ∧
    Info discardStd okWrite sampleEnv sampleTime none "x" =
      ([LogEvent.capture, LogEvent.capture], discardStd) ∧
    Warning discardStd okWrite sampleEnv sampleTime none "x" =
      ([LogEvent.capture, LogEvent.capture], discardStd) ∧
    Error discardStd okWrite sampleEnv sampleTime none "m" (some "boom") =
      ([LogEvent.capture, LogEvent.capture], discardStd) ∧
    writesOf [LogEvent.capture, LogEvent.capture] = [] :=
  levelFunctions_discard_no_write discardStd okWrite sampleEnv sampleTime
    none "x" "m" (some "boom") (by decide)

/-- Claim C5: formatHeader appends, in order, the prefix (when the
move-prefix flag is unset), the zero-padded date, the zero-padded time
with optional 6-digit microseconds (converting to the UTC view first when
LUTC is set), the path with an unpadded line number, and the prefix at
the end when the move-prefix flag is set; in particular with only Ldate
set and the timestamp 2024-01-05T00:00:00Z the header is the date string
followed by a space. -/
theorem formatHeader_field_order_spec :
    (∀ (l : Logger) (b : String) (t : Time) (file : String) (line : Nat),
      l.formatHeader b t file line = b ++ specHeader l t file line) ∧
    (New Sink.stderr "" Ldate).formatHeader "" jan5 "" 0 = "2024/01/05 " := by
  refine ⟨formatHeader_eq_specHeader, ?_⟩
  rw [formatHeader_eq_specHeader]
  decide

/-- Claim C6 counterexample: for the path slash-d-dot-ext, whose only
separator is its first byte, the code's shortening loop (which never
examines index 0) keeps the path unchanged, while stripping everything up
to and including the last separator would give the bare file name. -/
theorem shortFile_keeps_leading_sep :
    shortFile "/d.ext" = "/d.ext" ∧
    stripAfterLastSep "/d.ext" = "d.ext" ∧
    shortFile "/d.ext" ≠ stripAfterLastSep "/d.ext" := by
  refine ⟨by decide, by decide, by decide⟩

/-- Claim C6 (amended): when the short-file flag is set (even together
with the long-file flag, which it overrides) the header's path is the
shortened path, computed by stripping everything up to and including the
last path separator provided some separator occurs at a positive index;
a path whose only separator is its leading character (or which has no
separator) is left unchanged.  With only the long-file flag set the full
path is preserved.  In particular the sample absolute path is reduced to
its final element. -/
theorem shortFile_spec :
    (∀ file : String, shortFile file =
      if (file.data.drop 1).contains '/' then stripAfterLastSep file
      else file) ∧
    shortFile "/a/b/c/d.ext" = "d.ext" ∧
    (∀ (flag : Nat) (file : String) (ln : Nat), flag &&& Lshortfile ≠ 0 →
      specFilePart flag file ln = shortFile file ++ ":" ++ toString ln ++ ": ") ∧
    (∀ (flag : Nat) (file : String) (ln : Nat), flag &&& Lshortfile = 0 →
      flag &&& Llongfile ≠ 0 →
      specFilePart flag file ln = file ++ ":" ++ toString ln ++ ": ") ∧
    (∀ (l : Logger) (b : String) (t : Time) (file : String) (ln : Nat),
      l.formatHeader b t file ln = b ++ specHeader l t file ln) := by
  refine ⟨shortFile_eq, by decide, ?_, ?_, formatHeader_eq_specHeader⟩
  · intro flag file ln hs
    have h24 : flag &&& (Lshortfile ||| Llongfile) ≠ 0 := by
      intro h0
      apply hs
      have hassoc : flag &&& Lshortfile =
          flag &&& (Lshortfile ||| Llongfile) &&& Lshortfile := by
        rw [Nat.land_assoc,
          show (Lshortfile ||| Llongfile) &&& Lshortfile = Lshortfile from by decide]
      rw [hassoc, h0, Nat.zero_and]
    rw [specFilePart, if_pos (by simpa [bne_iff_ne] using h24),
      if_pos (by simpa [bne_iff_ne] using hs)]
  · intro flag file ln hs hl
    have h24 : flag &&& (Lshortfile ||| Llongfile) ≠ 0 := by
      intro h0
      apply hl
      have hassoc : flag &&& Llongfile =
          flag &&& (Lshortfile ||| Llongfile) &&& Llongfile := by
        rw [Nat.land_assoc,
          show (Lshortfile ||| Llongfile) &&& Llongfile = Llongfile from by decide]
      rw [hassoc, h0, Nat.zero_and]
    rw [specFilePart, if_pos (by simpa [bne_iff_ne] using h24),
      if_neg (by simp [hs])]

/-- Witness for C6: the file field of the header at the sample path, once
with both file flags (short wins) and once with only the long flag. -/
theorem shortFile_spec_witness :
    specFilePart (Lshortfile ||| Llongfile) "/a/b/c/d.ext" 7 =
      shortFile "/a/b/c/d.ext" ++ ":" ++ toString 7 ++ ": " ∧
    specFilePart Llongfile "/a/b/c/d.ext" 7 =
      "/a/b/c/d.ext" ++ ":" ++ toString 7 ++ ": " :=
  ⟨shortFile_spec.2.2.1 (Lshortfile ||| Llongfile) "/a/b/c/d.ext" 7 (by decide),
   shortFile_spec.2.2.2.1 Llongfile "/a/b/c/d.ext" 7 (by decide) (by decide)⟩

theorem Error_not_discard_none (std : Logger) (wr : String → Option String)
    (env : CallerEnv) (now : Time) (caller : Option (String × Nat))
    (m : String) (h : std.isDiscard = false) :
    Error std wr env now caller m none =
      ([LogEvent.capture, LogEvent.capture] ++
        (std.Output wr "github.com/perfectogo/log.Error" Green none 2 now caller
          ("\n\tPATH: " ++ env.file ++ "\n\tLOG LINE: " ++ toString env.line ++
            Green ++ "\n\tMESSAGE: " ++ m ++ "\n\tERROR: NO ERROR" ++ Reset)).events,
       (std.Output wr "github.com/perfectogo/log.Error" Green none 2 now caller
          ("\n\tPATH: " ++ env.file ++ "\n\tLOG LINE: " ++ toString env.line ++
            Green ++ "\n\tMESSAGE: " ++ m ++ "\n\tERROR: NO ERROR" ++ Reset)).logger) := by
  simp only [Error]
  rw [h, if_neg (by decide)]

theorem Error_not_discard_some (std : Logger) (wr : String → Option String)
    (env : CallerEnv) (now : Time) (caller : Option (String × Nat))
    (m e : String) (h : std.isDiscard = false) :
    Error std wr env now caller m (some e) =
      ([LogEvent.capture, LogEvent.capture] ++
        (std.Output wr "github.com/perfectogo/log.Error" Red (some e) 2 now caller
          ("\n\tPATH: " ++ env.file ++ "\n\tLOG LINE: " ++ toString env.line ++
            Red ++ "\n\tMESSAGE: " ++ m ++ "\n\tERROR: " ++ e ++ Reset)).events,
       (std.Output wr "github.com/perfectogo/log.Error" Red (some e) 2 now caller
          ("\n\tPATH: " ++ env.file ++ "\n\tLOG LINE: " ++ toString env.line ++
            Red ++ "\n\tMESSAGE: " ++ m ++ "\n\tERROR: " ++ e ++ Reset)).logger) := by
  simp only [Error]
  rw [h, if_neg (by decide)]

/-- Claim C4: with a nil cause, Error renders the literal NO ERROR text on
the ERROR line of its message body (the line is present, not suppressed)
and the line is wrapped in the neutral green color, which is not red;
with a non-nil cause the ERROR line carries the cause's message and the
wrapping color is red. -/
theorem Error_cause_rendering (std : Logger) (wr : String → Option String)
    (env : CallerEnv) (now : Time) (caller : Option (String × Nat))
    (m : String) (h : std.isDiscard = false) :
    ((∃ rest, writesOf (Error std wr env now caller m none).1 =
        [Green ++ "TIME: " ++ rest]) ∧
      (∃ p q, writesOf (Error std wr env now caller m none).1 =
        [p ++ "ERROR: NO ERROR" ++ q]) ∧
      Green ≠ Red) ∧
    (∀ e : String,
      (∃ rest, writesOf (Error std wr env now caller m (some e)).1 =
        [Red ++ "TIME: " ++ rest]) ∧
      (∃ p q, writesOf (Error std wr env now caller m (some e)).1 =
        [p ++ ("ERROR: " ++ e) ++ q])) := by
  have hwn : writesOf (Error std wr env now caller m none).1 =
      [Green ++ "TIME: " ++
        (std.formatHeader "" now (resolveCaller std caller).1
          (resolveCaller std caller).2 ++
         ("\n\tPATH: " ++ env.file ++ "\n\tLOG LINE: " ++ toString env.line ++
            Green ++ "\n\tMESSAGE: " ++ m ++ "\n\tERROR: NO ERROR" ++ Reset) ++
         "\n") ++ Reset] := by
    rw [Error_not_discard_none std wr env now caller m h]
    simp only [writesOf_append, writesOf_output_events]
    rw [buildLine_reset]
    rfl
  constructor
  · refine ⟨⟨?_, ?_⟩, ?_, by decide⟩
    case _ =>
      exact (std.formatHeader "" now (resolveCaller std caller).1
          (resolveCaller std caller).2 ++
        ("\n\tPATH: " ++ env.file ++ "\n\tLOG LINE: " ++ toString env.line ++
          Green ++ "\n\tMESSAGE: " ++ m ++ "\n\tERROR: NO ERROR" ++ Reset) ++
        "\n") ++ Reset
    case _ =>
      rw [hwn]
      simp only [String.append_assoc]
    refine ⟨Green ++ "TIME: " ++ std.formatHeader "" now
        (resolveCaller std caller).1 (resolveCaller std caller).2 ++
        "\n\tPATH: " ++ env.file ++ "\n\tLOG LINE: " ++ toString env.line ++
        Green ++ "\n\tMESSAGE: " ++ m ++ "\n\t",
      Reset ++ "\n" ++ Reset, ?_⟩
    rw [hwn,
      show ("\n\tERROR: NO ERROR" : String) = "\n\t" ++ "ERROR: NO ERROR" from
        by decide]
    simp only [String.append_assoc]
  · intro e
    have hws : writesOf (Error std wr env now caller m (some e)).1 =
        [Red ++ "TIME: " ++
          (std.formatHeader "" now (resolveCaller std caller).1
            (resolveCaller std caller).2 ++
           ("\n\tPATH: " ++ env.file ++ "\n\tLOG LINE: " ++ toString env.line ++
              Red ++ "\n\tMESSAGE: " ++ m ++ "\n\tERROR: " ++ e ++ Reset) ++
           "\n") ++ Reset] := by
      rw [Error_not_discard_some std wr env now caller m e h]
      simp only [writesOf_append, writesOf_output_events]
      rw [buildLine_reset]
      rfl
    constructor
    · refine ⟨(std.formatHeader "" now (resolveCaller std caller).1
          (resolveCaller std caller).2 ++
        ("\n\tPATH: " ++ env.file ++ "\n\tLOG LINE: " ++ toString env.line ++
          Red ++ "\n\tMESSAGE: " ++ m ++ "\n\tERROR: " ++ e ++ Reset) ++
        "\n") ++ Reset, ?_⟩
      rw [hws]
      simp only [String.append_assoc]
    · refine ⟨Red ++ "TIME: " ++ std.formatHeader "" now
          (resolveCaller std caller).1 (resolveCaller std caller).2 ++
          "\n\tPATH: " ++ env.file ++ "\n\tLOG LINE: " ++ toString env.line ++
          Red ++ "\n\tMESSAGE: " ++ m ++ "\n\t",
        Reset ++ "\n" ++ Reset, ?_⟩
      rw [hws,
        show ("\n\tERROR: " : String) = "\n\t" ++ "ERROR: " from by decide]
      simp only [String.append_assoc]

/-- Witness for C4: a non-discarding logger at concrete inputs, for both
the nil-cause and a concrete non-nil cause. -/
theorem Error_cause_rendering_witness :
    ((∃ rest, writesOf (Error plainStd okWrite sampleEnv sampleTime none "boom" none).1 =
        [Green ++ "TIME: " ++ rest]) ∧
      (∃ p q, writesOf (Error plainStd okWrite sampleEnv sampleTime none "boom" none).1 =
        [p ++ "ERROR: NO ERROR" ++ q]) ∧
      Green ≠ Red) ∧
    (∀ e : String,
      (∃ rest, writesOf (Error plainStd okWrite sampleEnv sampleTime none "boom" (some e)).1 =
        [Red ++ "TIME: " ++ rest]) ∧
      (∃ p q, writesOf (Error plainStd okWrite sampleEnv sampleTime none "boom" (some e)).1 =
        [p ++ ("ERROR: " ++ e) ++ q])) :=
  Error_cause_rendering plainStd okWrite sampleEnv sampleTime none "boom"
    (by decide)
